import Mathlib

/-! The grounder's driver, `src/main.cpp`.

A shallow embedding of `main`, the only function of the source file.  `main`
is pure orchestration: it reads the command line, selects the two streams,
calls the parser and then the analysis components.  The components themselves
(`readInput`, `printDomainAndProblem`, `computeSASPlusInvariants`,
`HierarchyTyping`, `run_grounding`, `setDebugMode`) live in other translation
units, so every call to one of them is recorded as an event of the run, with
the arguments it receives, and the values they hand back to `main` are read
from an environment record.

The command line enters `main` in the form in which the code consumes it:
the sequence of values returned by the successive calls of
`getopt_long_only` (up to, not including, the final `-1`), and the
positional arguments `argv[optind .. argc)`.
-/

namespace PandaPIGrounder

/-! ## Data model -/

/-- The local boolean variables of `main` (lines 43 to 58). -/
structure Flags where
  primitiveMode : Bool
  quietMode : Bool
  debugMode : Bool
  computeInvariants : Bool
  outputForPlanner : Bool
  optionsValid : Bool
  outputDomain : Bool
  enableHierarchyTyping : Bool
  removeUselessPredicates : Bool
  expandChoicelessAbstractTasks : Bool
  pruneEmptyMethodPreconditions : Bool
  futureCachingByPrecondition : Bool
  h2mutexes : Bool
  printTimings : Bool
  deriving DecidableEq

/-- What `inputStream` points to: `&std::cin` or a freshly opened `std::ifstream`. -/
inductive InputStream where
  | cin
  | ifstream (filename : String)
  deriving DecidableEq

/-- What `outputStream` points to: `&std::cout` or a freshly opened `std::ofstream`. -/
inductive OutputStream where
  | cout
  | ofstream (filename : String)
  deriving DecidableEq

/-- The argument list of the call of `run_grounding` (lines 221 to 225), in
the order of the call. -/
structure GroundingCall (Domain Problem : Type) where
  domain : Domain
  problem : Problem
  outputStream : OutputStream
  enableHierarchyTyping : Bool
  removeUselessPredicates : Bool
  expandChoicelessAbstractTasks : Bool
  pruneEmptyMethodPreconditions : Bool
  futureCachingByPrecondition : Bool
  h2mutexes : Bool
  outputForPlanner : Bool
  printTimings : Bool
  quietMode : Bool
  deriving DecidableEq

/-- The observable actions of `main`: a line written to `std::cout` or
`std::cerr`, the construction of a file stream, and the calls into the other
translation units, each with its arguments. -/
inductive Event (Domain Problem : Type) where
  | coutLine (text : String)
  | cerrLine (text : String)
  | setDebugMode (mode : Bool)
  | newIfstream (filename : String)
  | newOfstream (filename : String)
  | readInput (stream : InputStream)
  | printDomainAndProblem (domain : Domain) (problem : Problem)
  | computeSASPlusInvariants (domain : Domain) (problem : Problem)
  | newHierarchyTyping (domain : Domain) (problem : Problem)
  | run_grounding (call : GroundingCall Domain Problem)
  deriving DecidableEq

/-- What the rest of the system hands back to `main`.

* `ifstreamGood f`, `ofstreamGood f`: the value of `good ()` on the stream
  just constructed for file `f` (lines 147 and 176);
* `strerrorErrno f`: the text of `strerror (errno)` after the failed
  construction of a stream for `f` (lines 149 and 178);
* `readInput s`: the boolean returned by `readInput` and the contents it
  leaves in `domain` and `problem` (line 159);
* `computeSASPlusInvariants d p`: the vector returned at line 203.

The headers that declare these functions are not part of the source file.
`readInput` is the one call that fills `domain` and `problem`; the later
calls receive them and leave them as they are (the model is built once by
the parser and not changed afterwards), so the same `domain` and `problem`
appear in every event after `readInput`. -/
structure Environment (Domain Problem Invariant : Type) where
  ifstreamGood : String → Bool
  ofstreamGood : String → Bool
  strerrorErrno : String → String
  readInput : InputStream → Bool × Domain × Problem
  computeSASPlusInvariants : Domain → Problem → List Invariant

/-- A finished run of `main`: what it did, in order, and the value it
returned. Falling off the end of `main` returns `0`. -/
structure Run (Domain Problem : Type) where
  trace : List (Event Domain Problem)
  exitCode : Int
  deriving DecidableEq

/-! ## Option parsing (lines 43 to 100) -/

/-- The initial values of the flags (lines 43 to 58). -/
def Flags.initial : Flags where
  primitiveMode := false
  quietMode := false
  debugMode := false
  computeInvariants := false
  outputForPlanner := true
  optionsValid := true
  outputDomain := false
  enableHierarchyTyping := true
  removeUselessPredicates := true
  expandChoicelessAbstractTasks := true
  pruneEmptyMethodPreconditions := true
  futureCachingByPrecondition := false
  h2mutexes := false
  printTimings := false

/-- One pass through the body of the `while` loop for a value `c ≠ -1`
returned by `getopt_long_only` (lines 64 to 99). -/
def optionStep (f : Flags) (c : Char) : Flags :=
  if c = '?' ∨ c = ':' then { f with optionsValid := false }
  else if c = 'P' then { f with primitiveMode := true }
  else if c = 'd' then { f with debugMode := true }
  else if c = 'p' then { f with outputDomain := true }
  else if c = 'q' then { f with quietMode := true }
  else if c = 'i' then { f with computeInvariants := true }
  else if c = 'O' then { f with outputDomain := true }
  else if c = 'h' then { f with enableHierarchyTyping := false }
  else if c = 'l' then { f with removeUselessPredicates := false }
  else if c = 'e' then { f with expandChoicelessAbstractTasks := false }
  else if c = 'm' then { f with pruneEmptyMethodPreconditions := false }
  else if c = 'g' then { f with outputForPlanner := false }
  else if c = 'f' then { f with futureCachingByPrecondition := true }
  else if c = 't' then { f with printTimings := false }
  else if c = '2' then { f with h2mutexes := true }
  else f

/-- The whole `while` loop (lines 59 to 100) on the sequence of values
returned by `getopt_long_only`. -/
def parseOptions (opts : List Char) : Flags :=
  opts.foldl optionStep Flags.initial

/-! ## Positional arguments and stream selection (lines 114 to 183) -/

/-- Value of `inputFilename` after the `else` branch of lines 126 to 131:
initialised to `"-"` (line 120), replaced by `inputFiles[0]` when
`inputFiles.size()` is not zero. -/
def inputFilename (inputFiles : List String) : String :=
  if h : 0 < inputFiles.length then inputFiles[0] else "-"

/-- Value of `outputFilename` after the `else` branch of lines 126 to 131:
initialised to `"-"` (line 121), replaced by `inputFiles[1]` when
`inputFiles.size() > 1`. -/
def outputFilename (inputFiles : List String) : String :=
  if h : 1 < inputFiles.length then inputFiles[1] else "-"

/-! ## The analysis stage (lines 200 to 227) -/

/-- Lines 200 to 227: the invariant analysis, then either the primitive-mode
stub or the call of `run_grounding`.  Returns the events of the stage. -/
def analysisStage {Domain Problem Invariant : Type}
    (env : Environment Domain Problem Invariant) (f : Flags)
    (domain : Domain) (problem : Problem) (outputStream : OutputStream) :
    List (Event Domain Problem) :=
  let invariantsStep : List Invariant × List (Event Domain Problem) :=
    if f.computeInvariants then
      (env.computeSASPlusInvariants domain problem,
        [Event.computeSASPlusInvariants domain problem])
    else ([], [])
  let _invariants := invariantsStep.1
  if f.primitiveMode then
    invariantsStep.2 ++
      (if f.enableHierarchyTyping then [Event.newHierarchyTyping domain problem] else [])
  else
    invariantsStep.2 ++
      [Event.run_grounding
        { domain := domain
          problem := problem
          outputStream := outputStream
          enableHierarchyTyping := f.enableHierarchyTyping
          removeUselessPredicates := f.removeUselessPredicates
          expandChoicelessAbstractTasks := f.expandChoicelessAbstractTasks
          pruneEmptyMethodPreconditions := f.pruneEmptyMethodPreconditions
          futureCachingByPrecondition := f.futureCachingByPrecondition
          h2mutexes := f.h2mutexes
          outputForPlanner := f.outputForPlanner
          printTimings := f.printTimings
          quietMode := f.quietMode }]

/-- Lines 185 to 227: the test of `success`, print-domain mode, and the
analysis stage. `trace` holds the events so far. -/
def afterStreams {Domain Problem Invariant : Type}
    (env : Environment Domain Problem Invariant) (f : Flags)
    (trace : List (Event Domain Problem))
    (success : Bool) (domain : Domain) (problem : Problem)
    (outputStream : OutputStream) : Run Domain Problem :=
  if !success then
    ⟨trace ++ [Event.cerrLine "Failed to read input data!"], 1⟩
  else
    let trace := trace ++ (if !f.quietMode then [Event.cerrLine "Parsing done."] else [])
    if f.outputDomain then
      ⟨trace ++ [Event.printDomainAndProblem domain problem], 1⟩
    else
      ⟨trace ++ analysisStage env f domain problem outputStream, 0⟩

/-- Lines 157 to 227: the call of `readInput`, the selection of the output
stream, and the rest of the run. `trace` holds the events so far. -/
def afterInput {Domain Problem Invariant : Type}
    (env : Environment Domain Problem Invariant) (f : Flags)
    (trace : List (Event Domain Problem))
    (inputStream : InputStream) (outputFilename : String) : Run Domain Problem :=
  let result := env.readInput inputStream
  let success := result.1
  let domain := result.2.1
  let problem := result.2.2
  let trace := trace ++ [Event.readInput inputStream]
  if outputFilename = "-" then
    let trace := trace ++
      (if !f.quietMode then [Event.cerrLine "Writing output to standard output."] else [])
    afterStreams env f trace success domain problem OutputStream.cout
  else
    let trace := trace ++
      (if !f.quietMode then
        [Event.cerrLine ("Writing output to " ++ outputFilename ++ ".")] else []) ++
      [Event.newOfstream outputFilename]
    if !env.ofstreamGood outputFilename then
      ⟨trace ++ [Event.cerrLine ("Unable to open output file " ++ outputFilename ++ ": "
          ++ env.strerrorErrno outputFilename)], 1⟩
    else
      afterStreams env f trace success domain problem (OutputStream.ofstream outputFilename)

/-- The function `main` of `src/main.cpp`. `opts` is the sequence of values
returned by `getopt_long_only` before `-1`, `inputFiles` the positional
arguments `argv[optind .. argc)`. -/
def main {Domain Problem Invariant : Type}
    (env : Environment Domain Problem Invariant)
    (opts : List Char) (inputFiles : List String) : Run Domain Problem :=
  let f := parseOptions opts
  if !f.optionsValid then
    ⟨[Event.coutLine "Invalid options. Exiting."], 1⟩
  else
    let trace : List (Event Domain Problem) :=
      (if f.debugMode then [Event.setDebugMode f.debugMode] else []) ++
      (if f.primitiveMode && !f.quietMode then
        [Event.cerrLine
          "Note: Running in benchmark mode; grounding results will not be printed."]
       else [])
    if inputFiles.length > 2 then
      ⟨trace ++ [Event.cerrLine
        "You may specify at most two files as parameters: the input and the output file"], 1⟩
    else
      let inputFilename := inputFilename inputFiles
      let outputFilename := outputFilename inputFiles
      if inputFilename = "-" then
        let trace := trace ++
          (if !f.quietMode then [Event.cerrLine "Reading input from standard input."] else [])
        afterInput env f trace InputStream.cin outputFilename
      else
        let trace := trace ++
          (if !f.quietMode then
            [Event.cerrLine ("Reading input from " ++ inputFilename ++ ".")] else []) ++
          [Event.newIfstream inputFilename]
        if !env.ifstreamGood inputFilename then
          ⟨trace ++ [Event.cerrLine ("Unable to open input file " ++ inputFilename ++ ": "
              ++ env.strerrorErrno inputFilename)], 1⟩
        else
          afterInput env f trace (InputStream.ifstream inputFilename) outputFilename

/-! ## Hypotheses on a run -/

/-- The stream `main` reads from once it is open (lines 134 to 154). -/
def inputStreamOf (inputFiles : List String) : InputStream :=
  if inputFilename inputFiles = "-" then InputStream.cin
  else InputStream.ifstream (inputFilename inputFiles)

/-- The stream `main` writes to once it is open (lines 162 to 183). -/
def outputStreamOf (inputFiles : List String) : OutputStream :=
  if outputFilename inputFiles = "-" then OutputStream.cout
  else OutputStream.ofstream (outputFilename inputFiles)

/-- The run gets past line 189: the options are valid, at most two
positional arguments are given, both streams open and `readInput` succeeds. -/
def ParsesInput {Domain Problem Invariant : Type}
    (env : Environment Domain Problem Invariant)
    (opts : List Char) (inputFiles : List String) : Prop :=
  '?' ∉ opts ∧ ':' ∉ opts ∧ inputFiles.length ≤ 2 ∧
  (inputFilename inputFiles ≠ "-" → env.ifstreamGood (inputFilename inputFiles) = true) ∧
  (outputFilename inputFiles ≠ "-" → env.ofstreamGood (outputFilename inputFiles) = true) ∧
  (env.readInput (inputStreamOf inputFiles)).1 = true

/-- The run reaches the analysis stage (line 200): it gets past line 189 and
neither `-p` nor `-O` was given. -/
def ReachesAnalysis {Domain Problem Invariant : Type}
    (env : Environment Domain Problem Invariant)
    (opts : List Char) (inputFiles : List String) : Prop :=
  ParsesInput env opts inputFiles ∧ 'p' ∉ opts ∧ 'O' ∉ opts

/-- The events of a run up to line 183 in which both streams open. -/
def setupTrace {Domain Problem : Type} (f : Flags) (inputFiles : List String) :
    List (Event Domain Problem) :=
  (if f.debugMode then [Event.setDebugMode true] else []) ++
  (if f.primitiveMode && !f.quietMode then
    [Event.cerrLine "Note: Running in benchmark mode; grounding results will not be printed."]
   else []) ++
  (if f.quietMode then []
   else [Event.cerrLine
    (if inputFilename inputFiles = "-" then "Reading input from standard input."
     else "Reading input from " ++ inputFilename inputFiles ++ ".")]) ++
  (if inputFilename inputFiles = "-" then []
   else [Event.newIfstream (inputFilename inputFiles)]) ++
  [Event.readInput (inputStreamOf inputFiles)] ++
  (if f.quietMode then []
   else [Event.cerrLine
    (if outputFilename inputFiles = "-" then "Writing output to standard output."
     else "Writing output to " ++ outputFilename inputFiles ++ ".")]) ++
  (if outputFilename inputFiles = "-" then []
   else [Event.newOfstream (outputFilename inputFiles)])

/-! ## Sample environments -/

/-- A sample environment. Domains and problems are strings, invariants are
numbers. The file `missing.hddl` cannot be opened for reading, the file
`/proc/out.sas` cannot be opened for writing, and `readInput` fails on the
contents of `broken.hddl`. The invariant analysis returns two invariants. -/
def sampleEnv : Environment String String Nat where
  ifstreamGood := fun filename => filename != "missing.hddl"
  ofstreamGood := fun filename => filename != "/proc/out.sas"
  strerrorErrno := fun filename =>
    if filename = "missing.hddl" then "No such file or directory" else "Permission denied"
  readInput := fun stream =>
    match stream with
    | InputStream.cin => (true, "domain", "problem")
    | InputStream.ifstream filename => (filename != "broken.hddl", "domain", "problem")
  computeSASPlusInvariants := fun _ _ => [1, 2]

/-- The sample environment with an invariant analysis that finds nothing. -/
def sampleEnvNoInvariants : Environment String String Nat :=
  { sampleEnv with computeSASPlusInvariants := fun _ _ => [] }

/-! ## The flags after the option loop -/

/-- Occurrence of a value in a sequence of option values with one more in front. -/
theorem contains_cons_char (a c : Char) (cs : List Char) :
    (c :: cs).contains a = (decide (c = a) || cs.contains a) := by
  simp [List.contains_cons, eq_comm]

/-- One pass through the loop body, flag by flag: each flag is switched by
its own option characters only. -/
theorem optionStep_eq (f : Flags) (c : Char) :
    optionStep f c =
      { primitiveMode := f.primitiveMode || decide (c = 'P')
        quietMode := f.quietMode || decide (c = 'q')
        debugMode := f.debugMode || decide (c = 'd')
        computeInvariants := f.computeInvariants || decide (c = 'i')
        outputForPlanner := f.outputForPlanner && !decide (c = 'g')
        optionsValid := f.optionsValid && !(decide (c = '?') || decide (c = ':'))
        outputDomain := f.outputDomain || (decide (c = 'p') || decide (c = 'O'))
        enableHierarchyTyping := f.enableHierarchyTyping && !decide (c = 'h')
        removeUselessPredicates := f.removeUselessPredicates && !decide (c = 'l')
        expandChoicelessAbstractTasks := f.expandChoicelessAbstractTasks && !decide (c = 'e')
        pruneEmptyMethodPreconditions := f.pruneEmptyMethodPreconditions && !decide (c = 'm')
        futureCachingByPrecondition := f.futureCachingByPrecondition || decide (c = 'f')
        h2mutexes := f.h2mutexes || decide (c = '2')
        printTimings := f.printTimings && !decide (c = 't') } := by
  by_cases h0 : c = '?'
  · subst h0; simp [optionStep]
  by_cases h1 : c = ':'
  · subst h1; simp [optionStep]
  by_cases h2 : c = 'P'
  · subst h2; simp [optionStep]
  by_cases h3 : c = 'd'
  · subst h3; simp [optionStep]
  by_cases h4 : c = 'p'
  · subst h4; simp [optionStep]
  by_cases h5 : c = 'q'
  · subst h5; simp [optionStep]
  by_cases h6 : c = 'i'
  · subst h6; simp [optionStep]
  by_cases h7 : c = 'O'
  · subst h7; simp [optionStep]
  by_cases h8 : c = 'h'
  · subst h8; simp [optionStep]
  by_cases h9 : c = 'l'
  · subst h9; simp [optionStep]
  by_cases h10 : c = 'e'
  · subst h10; simp [optionStep]
  by_cases h11 : c = 'm'
  · subst h11; simp [optionStep]
  by_cases h12 : c = 'g'
  · subst h12; simp [optionStep]
  by_cases h13 : c = 'f'
  · subst h13; simp [optionStep]
  by_cases h14 : c = 't'
  · subst h14; simp [optionStep]
  by_cases h15 : c = '2'
  · subst h15; simp [optionStep]
  simp [optionStep, *]

theorem foldl_optionStep (opts : List Char) (f : Flags) :
    opts.foldl optionStep f =
      { primitiveMode := f.primitiveMode || opts.contains 'P'
        quietMode := f.quietMode || opts.contains 'q'
        debugMode := f.debugMode || opts.contains 'd'
        computeInvariants := f.computeInvariants || opts.contains 'i'
        outputForPlanner := f.outputForPlanner && !opts.contains 'g'
        optionsValid := f.optionsValid && !(opts.contains '?' || opts.contains ':')
        outputDomain := f.outputDomain || (opts.contains 'p' || opts.contains 'O')
        enableHierarchyTyping := f.enableHierarchyTyping && !opts.contains 'h'
        removeUselessPredicates := f.removeUselessPredicates && !opts.contains 'l'
        expandChoicelessAbstractTasks := f.expandChoicelessAbstractTasks && !opts.contains 'e'
        pruneEmptyMethodPreconditions := f.pruneEmptyMethodPreconditions && !opts.contains 'm'
        futureCachingByPrecondition := f.futureCachingByPrecondition || opts.contains 'f'
        h2mutexes := f.h2mutexes || opts.contains '2'
        printTimings := f.printTimings && !opts.contains 't' } := by
  induction opts generalizing f with
  | nil => simp
  | cons c cs ih =>
    rw [List.foldl_cons, ih, optionStep_eq]
    simp only [contains_cons_char, Flags.mk.injEq]
    refine ⟨?_, ?_, ?_, ?_, ?_, ?_, ?_, ?_, ?_, ?_, ?_, ?_, ?_, ?_⟩ <;>
      simp [Bool.or_assoc, Bool.and_assoc, Bool.or_left_comm, Bool.and_left_comm]

/-- The flags after the loop, each in terms of the occurrence of its own
option characters. -/
theorem parseOptions_eq (opts : List Char) :
    parseOptions opts =
      { primitiveMode := decide ('P' ∈ opts)
        quietMode := decide ('q' ∈ opts)
        debugMode := decide ('d' ∈ opts)
        computeInvariants := decide ('i' ∈ opts)
        outputForPlanner := !decide ('g' ∈ opts)
        optionsValid := !decide ('?' ∈ opts ∨ ':' ∈ opts)
        outputDomain := decide ('p' ∈ opts ∨ 'O' ∈ opts)
        enableHierarchyTyping := !decide ('h' ∈ opts)
        removeUselessPredicates := !decide ('l' ∈ opts)
        expandChoicelessAbstractTasks := !decide ('e' ∈ opts)
        pruneEmptyMethodPreconditions := !decide ('m' ∈ opts)
        futureCachingByPrecondition := decide ('f' ∈ opts)
        h2mutexes := decide ('2' ∈ opts)
        printTimings := false } := by
  unfold parseOptions
  rw [foldl_optionStep]
  simp [Flags.initial]

/-! ## The paths through `main` -/

/-- Lines 102 to 183: a run with valid options, at most two positional
arguments and both streams open continues at line 185 after the events of
`setupTrace`. -/
theorem main_of_streamsOpen {Domain Problem Invariant : Type}
    (env : Environment Domain Problem Invariant)
    (opts : List Char) (inputFiles : List String)
    (h1 : '?' ∉ opts) (h2 : ':' ∉ opts) (h3 : inputFiles.length ≤ 2)
    (h4 : inputFilename inputFiles ≠ "-" → env.ifstreamGood (inputFilename inputFiles) = true)
    (h5 : outputFilename inputFiles ≠ "-" → env.ofstreamGood (outputFilename inputFiles) = true) :
    main env opts inputFiles =
      afterStreams env (parseOptions opts) (setupTrace (parseOptions opts) inputFiles)
        (env.readInput (inputStreamOf inputFiles)).1
        (env.readInput (inputStreamOf inputFiles)).2.1
        (env.readInput (inputStreamOf inputFiles)).2.2
        (outputStreamOf inputFiles) := by
  have hv : (parseOptions opts).optionsValid = true := by
    rw [parseOptions_eq]; simp [h1, h2]
  have hd : ∀ b : Bool, (if b = true then [Event.setDebugMode b] else [])
      = (if b = true then [(Event.setDebugMode true : Event Domain Problem)] else []) := by
    intro b; cases b <;> rfl
  unfold main
  generalize parseOptions opts = f at hv ⊢
  have h3n : ¬ inputFiles.length > 2 := by omega
  simp only [hv, h3n, Bool.not_true, Bool.false_eq_true, if_false, hd]
  unfold afterInput setupTrace inputStreamOf outputStreamOf
  by_cases hi : inputFilename inputFiles = "-"
  · by_cases ho : outputFilename inputFiles = "-"
    · cases hq : f.quietMode <;> simp [hi, ho]
    · cases hq : f.quietMode <;> simp [hi, ho, h5 ho]
  · by_cases ho : outputFilename inputFiles = "-"
    · cases hq : f.quietMode <;> simp [hi, ho, h4 hi]
    · cases hq : f.quietMode <;> simp [hi, ho, h4 hi, h5 ho]

/-- The flag `optionsValid` after the loop. -/
theorem optionsValid_parseOptions (opts : List Char) :
    (parseOptions opts).optionsValid = true ↔ '?' ∉ opts ∧ ':' ∉ opts := by
  rw [parseOptions_eq]; simp

/-- Lines 102 to 106: a run with an invalid option. -/
theorem main_of_invalid {Domain Problem Invariant : Type}
    (env : Environment Domain Problem Invariant)
    (opts : List Char) (inputFiles : List String)
    (h : '?' ∈ opts ∨ ':' ∈ opts) :
    main env opts inputFiles = ⟨[Event.coutLine "Invalid options. Exiting."], 1⟩ := by
  have hv : (parseOptions opts).optionsValid = false := by
    rw [parseOptions_eq]
    rcases h with h | h <;> simp [h]
  unfold main
  simp [hv]

/-- Lines 123 to 125: a run with more than two positional arguments. -/
theorem main_of_tooMany {Domain Problem Invariant : Type}
    (env : Environment Domain Problem Invariant)
    (opts : List Char) (inputFiles : List String)
    (h1 : '?' ∉ opts) (h2 : ':' ∉ opts) (h3 : 2 < inputFiles.length) :
    main env opts inputFiles =
      ⟨(if 'd' ∈ opts then [Event.setDebugMode true] else []) ++
        (if 'P' ∈ opts ∧ 'q' ∉ opts then
          [Event.cerrLine
            "Note: Running in benchmark mode; grounding results will not be printed."]
         else []) ++
        [Event.cerrLine
          "You may specify at most two files as parameters: the input and the output file"],
       1⟩ := by
  unfold main
  rw [parseOptions_eq]
  by_cases hd : 'd' ∈ opts <;> simp [h1, h2, h3, hd]

/-- Lines 147 to 151: a run whose input file does not open. -/
theorem main_of_inputFails {Domain Problem Invariant : Type}
    (env : Environment Domain Problem Invariant)
    (opts : List Char) (inputFiles : List String)
    (h1 : '?' ∉ opts) (h2 : ':' ∉ opts) (h3 : inputFiles.length ≤ 2)
    (hi : inputFilename inputFiles ≠ "-")
    (hbad : env.ifstreamGood (inputFilename inputFiles) = false) :
    main env opts inputFiles =
      ⟨(if 'd' ∈ opts then [Event.setDebugMode true] else []) ++
        (if 'P' ∈ opts ∧ 'q' ∉ opts then
          [Event.cerrLine
            "Note: Running in benchmark mode; grounding results will not be printed."]
         else []) ++
        (if 'q' ∈ opts then []
         else [Event.cerrLine ("Reading input from " ++ inputFilename inputFiles ++ ".")]) ++
        [Event.newIfstream (inputFilename inputFiles),
         Event.cerrLine ("Unable to open input file " ++ inputFilename inputFiles ++ ": "
            ++ env.strerrorErrno (inputFilename inputFiles))],
       1⟩ := by
  have h3n : ¬ 2 < inputFiles.length := by omega
  unfold main
  rw [parseOptions_eq]
  by_cases hd : 'd' ∈ opts <;> by_cases hq : 'q' ∈ opts <;>
    simp [h1, h2, h3n, hd, hq, hi, hbad]

/-- Lines 176 to 180: a run whose output file does not open. -/
theorem main_of_outputFails {Domain Problem Invariant : Type}
    (env : Environment Domain Problem Invariant)
    (opts : List Char) (inputFiles : List String)
    (h1 : '?' ∉ opts) (h2 : ':' ∉ opts) (h3 : inputFiles.length ≤ 2)
    (h4 : inputFilename inputFiles ≠ "-" → env.ifstreamGood (inputFilename inputFiles) = true)
    (ho : outputFilename inputFiles ≠ "-")
    (hbad : env.ofstreamGood (outputFilename inputFiles) = false) :
    main env opts inputFiles =
      ⟨setupTrace (parseOptions opts) inputFiles ++
        [Event.cerrLine ("Unable to open output file " ++ outputFilename inputFiles ++ ": "
            ++ env.strerrorErrno (outputFilename inputFiles))],
       1⟩ := by
  have hv : (parseOptions opts).optionsValid = true := by
    rw [parseOptions_eq]; simp [h1, h2]
  have hd : ∀ b : Bool, (if b = true then [Event.setDebugMode b] else [])
      = (if b = true then [(Event.setDebugMode true : Event Domain Problem)] else []) := by
    intro b; cases b <;> rfl
  unfold main
  generalize parseOptions opts = f at hv ⊢
  have h3n : ¬ inputFiles.length > 2 := by omega
  simp only [hv, h3n, Bool.not_true, Bool.false_eq_true, if_false, hd]
  unfold afterInput setupTrace inputStreamOf
  by_cases hi : inputFilename inputFiles = "-"
  · cases hq : f.quietMode <;> simp [hi, ho, hbad]
  · cases hq : f.quietMode <;> simp [hi, ho, h4 hi, hbad]

/-- No event before line 185 is a line on `std::cout` or a call of one of
the four components that follow the parser. -/
theorem setupTrace_events {Domain Problem : Type} (f : Flags) (inputFiles : List String) :
    (∀ text, Event.coutLine text ∉ (setupTrace f inputFiles : List (Event Domain Problem))) ∧
    (∀ d p, Event.printDomainAndProblem d p ∉
      (setupTrace f inputFiles : List (Event Domain Problem))) ∧
    (∀ d p, Event.computeSASPlusInvariants d p ∉
      (setupTrace f inputFiles : List (Event Domain Problem))) ∧
    (∀ d p, Event.newHierarchyTyping d p ∉
      (setupTrace f inputFiles : List (Event Domain Problem))) ∧
    (∀ call, Event.run_grounding call ∉
      (setupTrace f inputFiles : List (Event Domain Problem))) := by
  unfold setupTrace
  refine ⟨?_, ?_, ?_, ?_, ?_⟩ <;> intros <;> simp

/-- Lines 185 to 189: a run in which both streams open and `readInput` fails. -/
theorem main_of_parseFails {Domain Problem Invariant : Type}
    (env : Environment Domain Problem Invariant)
    (opts : List Char) (inputFiles : List String)
    (h1 : '?' ∉ opts) (h2 : ':' ∉ opts) (h3 : inputFiles.length ≤ 2)
    (h4 : inputFilename inputFiles ≠ "-" → env.ifstreamGood (inputFilename inputFiles) = true)
    (h5 : outputFilename inputFiles ≠ "-" → env.ofstreamGood (outputFilename inputFiles) = true)
    (hfail : (env.readInput (inputStreamOf inputFiles)).1 = false) :
    main env opts inputFiles =
      ⟨setupTrace (parseOptions opts) inputFiles ++
        [Event.cerrLine "Failed to read input data!"], 1⟩ := by
  rw [main_of_streamsOpen env opts inputFiles h1 h2 h3 h4 h5]
  simp [afterStreams, hfail]

/-- Lines 193 to 197: a run that gets past the parser in print-domain mode. -/
theorem main_of_printDomain {Domain Problem Invariant : Type}
    (env : Environment Domain Problem Invariant)
    (opts : List Char) (inputFiles : List String)
    (hrun : ParsesInput env opts inputFiles) (hp : 'p' ∈ opts ∨ 'O' ∈ opts) :
    main env opts inputFiles =
      ⟨setupTrace (parseOptions opts) inputFiles ++
        (if 'q' ∈ opts then [] else [Event.cerrLine "Parsing done."]) ++
        [Event.printDomainAndProblem (env.readInput (inputStreamOf inputFiles)).2.1
          (env.readInput (inputStreamOf inputFiles)).2.2], 1⟩ := by
  obtain ⟨h1, h2, h3, h4, h5, h6⟩ := hrun
  rw [main_of_streamsOpen env opts inputFiles h1 h2 h3 h4 h5]
  have hq : (parseOptions opts).quietMode = decide ('q' ∈ opts) := by
    rw [parseOptions_eq]
  have hod : (parseOptions opts).outputDomain = true := by
    rw [parseOptions_eq]; simpa using hp
  by_cases hqq : 'q' ∈ opts <;> simp [afterStreams, h6, hq, hod, hqq]

/-- Lines 200 to 227: a run that reaches the analysis stage. -/
theorem main_of_reachesAnalysis {Domain Problem Invariant : Type}
    (env : Environment Domain Problem Invariant)
    (opts : List Char) (inputFiles : List String)
    (hrun : ReachesAnalysis env opts inputFiles) :
    main env opts inputFiles =
      ⟨setupTrace (parseOptions opts) inputFiles ++
        (if 'q' ∈ opts then [] else [Event.cerrLine "Parsing done."]) ++
        analysisStage env (parseOptions opts)
          (env.readInput (inputStreamOf inputFiles)).2.1
          (env.readInput (inputStreamOf inputFiles)).2.2
          (outputStreamOf inputFiles), 0⟩ := by
  obtain ⟨⟨h1, h2, h3, h4, h5, h6⟩, hp, hO⟩ := hrun
  rw [main_of_streamsOpen env opts inputFiles h1 h2 h3 h4 h5]
  have hq : (parseOptions opts).quietMode = decide ('q' ∈ opts) := by
    rw [parseOptions_eq]
  have hod : (parseOptions opts).outputDomain = false := by
    rw [parseOptions_eq]; simp [hp, hO]
  by_cases hqq : 'q' ∈ opts <;> simp [afterStreams, h6, hq, hod, hqq]

/-- The events of the analysis stage in terms of the options. -/
theorem analysisStage_parseOptions {Domain Problem Invariant : Type}
    (env : Environment Domain Problem Invariant) (opts : List Char)
    (domain : Domain) (problem : Problem) (outputStream : OutputStream) :
    analysisStage env (parseOptions opts) domain problem outputStream =
      (if 'i' ∈ opts then [Event.computeSASPlusInvariants domain problem] else []) ++
      (if 'P' ∈ opts then
        (if 'h' ∈ opts then [] else [Event.newHierarchyTyping domain problem])
       else
        [Event.run_grounding
          { domain := domain
            problem := problem
            outputStream := outputStream
            enableHierarchyTyping := !decide ('h' ∈ opts)
            removeUselessPredicates := !decide ('l' ∈ opts)
            expandChoicelessAbstractTasks := !decide ('e' ∈ opts)
            pruneEmptyMethodPreconditions := !decide ('m' ∈ opts)
            futureCachingByPrecondition := decide ('f' ∈ opts)
            h2mutexes := decide ('2' ∈ opts)
            outputForPlanner := !decide ('g' ∈ opts)
            printTimings := false
            quietMode := decide ('q' ∈ opts) }]) := by
  unfold analysisStage
  rw [parseOptions_eq]
  by_cases hi : 'i' ∈ opts <;> by_cases hP : 'P' ∈ opts <;> by_cases hh : 'h' ∈ opts <;>
    simp [hi, hP, hh]

/-- The flags depend on the option sequence only through the set of values
that occur in it. -/
theorem parseOptions_congr (opts opts' : List Char) (h : ∀ c, c ∈ opts' ↔ c ∈ opts) :
    parseOptions opts' = parseOptions opts := by
  rw [parseOptions_eq, parseOptions_eq]
  simp only [h]

/-- A run that calls `run_grounding` has reached the analysis stage, not in
primitive mode. -/
theorem reachesAnalysis_of_run_grounding {Domain Problem Invariant : Type}
    (env : Environment Domain Problem Invariant)
    (opts : List Char) (inputFiles : List String) (call : GroundingCall Domain Problem)
    (h : Event.run_grounding call ∈ (main env opts inputFiles).trace) :
    ReachesAnalysis env opts inputFiles ∧ 'P' ∉ opts := by
  obtain ⟨_, hpd, _, _, hg⟩ :=
    @setupTrace_events Domain Problem (parseOptions opts) inputFiles
  by_cases hv : '?' ∈ opts ∨ ':' ∈ opts
  · rw [main_of_invalid env opts inputFiles hv] at h
    simp at h
  have h1 : '?' ∉ opts := fun hc => hv (Or.inl hc)
  have h2 : ':' ∉ opts := fun hc => hv (Or.inr hc)
  by_cases h3 : 2 < inputFiles.length
  · rw [main_of_tooMany env opts inputFiles h1 h2 h3] at h
    simp at h
  have h3 : inputFiles.length ≤ 2 := by omega
  by_cases h4 : inputFilename inputFiles ≠ "-" →
      env.ifstreamGood (inputFilename inputFiles) = true
  swap
  · have hi : inputFilename inputFiles ≠ "-" := fun hc => h4 (fun hn => absurd hc hn)
    have hbad : env.ifstreamGood (inputFilename inputFiles) = false := by
      cases hgood : env.ifstreamGood (inputFilename inputFiles)
      · rfl
      · exact absurd (fun _ => hgood) h4
    rw [main_of_inputFails env opts inputFiles h1 h2 h3 hi hbad] at h
    simp at h
  by_cases h5 : outputFilename inputFiles ≠ "-" →
      env.ofstreamGood (outputFilename inputFiles) = true
  swap
  · have ho : outputFilename inputFiles ≠ "-" := fun hc => h5 (fun hn => absurd hc hn)
    have hbad : env.ofstreamGood (outputFilename inputFiles) = false := by
      cases hgood : env.ofstreamGood (outputFilename inputFiles)
      · rfl
      · exact absurd (fun _ => hgood) h5
    rw [main_of_outputFails env opts inputFiles h1 h2 h3 h4 ho hbad] at h
    simp [hg call] at h
  cases h6 : (env.readInput (inputStreamOf inputFiles)).1
  · rw [main_of_parseFails env opts inputFiles h1 h2 h3 h4 h5 h6] at h
    simp [hg call] at h
  have hrun : ParsesInput env opts inputFiles := ⟨h1, h2, h3, h4, h5, h6⟩
  by_cases hp : 'p' ∈ opts ∨ 'O' ∈ opts
  · rw [main_of_printDomain env opts inputFiles hrun hp] at h
    simp [hg call] at h
  have hreach : ReachesAnalysis env opts inputFiles :=
    ⟨hrun, fun hc => hp (Or.inl hc), fun hc => hp (Or.inr hc)⟩
  refine ⟨hreach, ?_⟩
  intro hP
  rw [main_of_reachesAnalysis env opts inputFiles hreach, analysisStage_parseOptions] at h
  simp [hg call, hP] at h

/-- The arguments of the call of `run_grounding`, in terms of the options. -/
theorem run_grounding_arguments {Domain Problem Invariant : Type}
    (env : Environment Domain Problem Invariant)
    (opts : List Char) (inputFiles : List String) (call : GroundingCall Domain Problem)
    (h : Event.run_grounding call ∈ (main env opts inputFiles).trace) :
    call =
      { domain := (env.readInput (inputStreamOf inputFiles)).2.1
        problem := (env.readInput (inputStreamOf inputFiles)).2.2
        outputStream := outputStreamOf inputFiles
        enableHierarchyTyping := !decide ('h' ∈ opts)
        removeUselessPredicates := !decide ('l' ∈ opts)
        expandChoicelessAbstractTasks := !decide ('e' ∈ opts)
        pruneEmptyMethodPreconditions := !decide ('m' ∈ opts)
        futureCachingByPrecondition := decide ('f' ∈ opts)
        h2mutexes := decide ('2' ∈ opts)
        outputForPlanner := !decide ('g' ∈ opts)
        printTimings := false
        quietMode := decide ('q' ∈ opts) } := by
  obtain ⟨hreach, hP⟩ := reachesAnalysis_of_run_grounding env opts inputFiles call h
  obtain ⟨_, _, _, _, hg⟩ :=
    @setupTrace_events Domain Problem (parseOptions opts) inputFiles
  rw [main_of_reachesAnalysis env opts inputFiles hreach, analysisStage_parseOptions] at h
  simpa [hg call, hP] using h

/-- The events of the analysis stage do not depend on what the invariant
analysis returns: `invariants` is assigned at line 203 and never read. -/
theorem analysisStage_invariants_unused {Domain Problem Invariant : Type}
    (env : Environment Domain Problem Invariant)
    (g : Domain → Problem → List Invariant) (f : Flags)
    (domain : Domain) (problem : Problem) (outputStream : OutputStream) :
    analysisStage { env with computeSASPlusInvariants := g } f domain problem outputStream =
      analysisStage env f domain problem outputStream := by
  unfold analysisStage
  cases f.computeInvariants <;> rfl

/-- The run of `main` does not depend on what the invariant analysis returns. -/
theorem main_invariants_unused {Domain Problem Invariant : Type}
    (env : Environment Domain Problem Invariant)
    (g : Domain → Problem → List Invariant)
    (opts : List Char) (inputFiles : List String) :
    main { env with computeSASPlusInvariants := g } opts inputFiles =
      main env opts inputFiles := by
  simp only [main, afterInput, afterStreams, analysisStage_invariants_unused]

/-- The calls of `computeSASPlusInvariants` in a run that reaches the
analysis stage. -/
theorem computeSASPlusInvariants_mem_iff {Domain Problem Invariant : Type}
    (env : Environment Domain Problem Invariant)
    (opts : List Char) (inputFiles : List String)
    (hrun : ReachesAnalysis env opts inputFiles) (d : Domain) (p : Problem) :
    Event.computeSASPlusInvariants d p ∈ (main env opts inputFiles).trace ↔
      'i' ∈ opts ∧ d = (env.readInput (inputStreamOf inputFiles)).2.1 ∧
        p = (env.readInput (inputStreamOf inputFiles)).2.2 := by
  obtain ⟨_, _, hc, _, _⟩ :=
    @setupTrace_events Domain Problem (parseOptions opts) inputFiles
  rw [main_of_reachesAnalysis env opts inputFiles hrun, analysisStage_parseOptions]
  by_cases hi : 'i' ∈ opts <;> by_cases hP : 'P' ∈ opts <;> by_cases hh : 'h' ∈ opts <;>
    simp [hc d p, hi, hP, hh]

/-- The constructions of `HierarchyTyping` in a run that reaches the
analysis stage. -/
theorem newHierarchyTyping_mem_iff {Domain Problem Invariant : Type}
    (env : Environment Domain Problem Invariant)
    (opts : List Char) (inputFiles : List String)
    (hrun : ReachesAnalysis env opts inputFiles) (d : Domain) (p : Problem) :
    Event.newHierarchyTyping d p ∈ (main env opts inputFiles).trace ↔
      'P' ∈ opts ∧ 'h' ∉ opts ∧ d = (env.readInput (inputStreamOf inputFiles)).2.1 ∧
        p = (env.readInput (inputStreamOf inputFiles)).2.2 := by
  obtain ⟨_, _, _, ht, _⟩ :=
    @setupTrace_events Domain Problem (parseOptions opts) inputFiles
  rw [main_of_reachesAnalysis env opts inputFiles hrun, analysisStage_parseOptions]
  by_cases hi : 'i' ∈ opts <;> by_cases hP : 'P' ∈ opts <;> by_cases hh : 'h' ∈ opts <;>
    simp [ht d p, hi, hP, hh]

/-- Whether a run reaches the analysis stage does not depend on the
occurrence of an option other than `-p` and `-O`. -/
theorem reachesAnalysis_congr {Domain Problem Invariant : Type}
    (env : Environment Domain Problem Invariant)
    (opts opts' : List Char) (inputFiles : List String)
    (h1 : '?' ∈ opts' ↔ '?' ∈ opts) (h2 : ':' ∈ opts' ↔ ':' ∈ opts)
    (h3 : 'p' ∈ opts' ↔ 'p' ∈ opts) (h4 : 'O' ∈ opts' ↔ 'O' ∈ opts)
    (hrun : ReachesAnalysis env opts inputFiles) :
    ReachesAnalysis env opts' inputFiles := by
  unfold ReachesAnalysis ParsesInput at *
  rw [h1, h2, h3, h4]
  exact hrun

/-- The stream constructions and the call of `readInput` among the events
before line 185. -/
theorem setupTrace_streams {Domain Problem : Type} (f : Flags) (inputFiles : List String) :
    (∀ filename, Event.newIfstream filename ∈
        (setupTrace f inputFiles : List (Event Domain Problem)) ↔
      filename = inputFilename inputFiles ∧ filename ≠ "-") ∧
    (∀ filename, Event.newOfstream filename ∈
        (setupTrace f inputFiles : List (Event Domain Problem)) ↔
      filename = outputFilename inputFiles ∧ filename ≠ "-") ∧
    (∀ stream, Event.readInput stream ∈
        (setupTrace f inputFiles : List (Event Domain Problem)) ↔
      stream = inputStreamOf inputFiles) := by
  unfold setupTrace
  refine ⟨?_, ?_, ?_⟩
  · intro filename
    by_cases hi : inputFilename inputFiles = "-"
    · simp [hi]
    · simp [hi]
      intro h
      rw [h]
      exact hi
  · intro filename
    by_cases ho : outputFilename inputFiles = "-"
    · simp [ho]
    · simp [ho]
      intro h
      rw [h]
      exact ho
  · intro stream
    simp

/-- The part of a run after line 183 constructs no stream and does not call
`readInput`. -/
theorem afterStreams_streams {Domain Problem Invariant : Type}
    (env : Environment Domain Problem Invariant) (f : Flags)
    (trace : List (Event Domain Problem))
    (success : Bool) (domain : Domain) (problem : Problem) (outputStream : OutputStream) :
    (∀ filename, Event.newIfstream filename ∈
        (afterStreams env f trace success domain problem outputStream).trace ↔
      Event.newIfstream filename ∈ trace) ∧
    (∀ filename, Event.newOfstream filename ∈
        (afterStreams env f trace success domain problem outputStream).trace ↔
      Event.newOfstream filename ∈ trace) ∧
    (∀ stream, Event.readInput stream ∈
        (afterStreams env f trace success domain problem outputStream).trace ↔
      Event.readInput stream ∈ trace) := by
  unfold afterStreams analysisStage
  cases success <;> cases f.quietMode <;> cases f.outputDomain <;>
    cases f.computeInvariants <;> cases f.primitiveMode <;>
    cases f.enableHierarchyTyping <;> simp

/-! ## Claims about the driver -/

/-- C1, as stated, fails: in the run with no option and no positional
argument, which reaches the grounding call, `run_grounding` receives `false`
for `futureCachingByPrecondition`. -/
theorem default_future_caching_is_off :
    ReachesAnalysis sampleEnv [] [] ∧
    ∃ call, Event.run_grounding call ∈ (main sampleEnv [] []).trace ∧
      call.futureCachingByPrecondition = false :=
  ⟨by simp [ReachesAnalysis, ParsesInput, inputFilename, outputFilename, inputStreamOf,
      sampleEnv],
   ⟨{ domain := "domain"
      problem := "problem"
      outputStream := OutputStream.cout
      enableHierarchyTyping := true
      removeUselessPredicates := true
      expandChoicelessAbstractTasks := true
      pruneEmptyMethodPreconditions := true
      futureCachingByPrecondition := false
      h2mutexes := false
      outputForPlanner := true
      printTimings := false
      quietMode := false }, by decide, rfl⟩⟩

/-- C1, amended. When `main` is run with no option and the run reaches the
analysis stage, `run_grounding` is called, it receives `true` for hierarchy
typing, literal pruning, abstract expansion and method-precondition pruning,
`false` for future caching by precondition and for h2 mutexes, and
`computeSASPlusInvariants` is not invoked. -/
theorem default_configuration {Domain Problem Invariant : Type}
    (env : Environment Domain Problem Invariant) (inputFiles : List String)
    (hrun : ReachesAnalysis env [] inputFiles) :
    (∃ call, Event.run_grounding call ∈ (main env [] inputFiles).trace) ∧
    (∀ call, Event.run_grounding call ∈ (main env [] inputFiles).trace →
      call.enableHierarchyTyping = true ∧
      call.removeUselessPredicates = true ∧
      call.expandChoicelessAbstractTasks = true ∧
      call.pruneEmptyMethodPreconditions = true ∧
      call.futureCachingByPrecondition = false ∧
      call.h2mutexes = false) ∧
    (∀ d p, Event.computeSASPlusInvariants d p ∉ (main env [] inputFiles).trace) := by
  rw [main_of_reachesAnalysis env [] inputFiles hrun, analysisStage_parseOptions]
  obtain ⟨_, _, hc, _, hg⟩ :=
    @setupTrace_events Domain Problem (parseOptions []) inputFiles
  refine ⟨?_, ?_, ?_⟩
  · apply Exists.intro
    simp
    exact Or.inr rfl
  · intro call hcall
    simp [hg call] at hcall
    subst hcall
    simp
  · intro d p
    simp [hc d p]

/-- Witness of C1 amended: no option, input from `in.hddl`, output to
standard output. -/
theorem default_configuration_witness :
    ReachesAnalysis sampleEnv [] ["in.hddl"] ∧
    (∃ call, Event.run_grounding call ∈ (main sampleEnv [] ["in.hddl"]).trace) ∧
    (∀ d p, Event.computeSASPlusInvariants d p ∉ (main sampleEnv [] ["in.hddl"]).trace) :=
  have hrun : ReachesAnalysis sampleEnv [] ["in.hddl"] := by
    simp [ReachesAnalysis, ParsesInput, inputFilename, outputFilename, inputStreamOf,
      sampleEnv]
  have h := default_configuration sampleEnv ["in.hddl"] hrun
  ⟨hrun, h.1, h.2.2⟩

/-- C2. Flag independence. Each boolean handed to `run_grounding` is decided
by the occurrence of its own option among the values returned by
`getopt_long_only`, in any order and with any multiplicity:
`enableHierarchyTyping` is false iff `-h` occurs, `removeUselessPredicates`
is false iff `-l` occurs, `expandChoicelessAbstractTasks` is false iff `-e`
occurs, `pruneEmptyMethodPreconditions` is false iff `-m` occurs,
`futureCachingByPrecondition` is true iff `-f` occurs, `h2mutexes` is true
iff `-2` occurs, `quietMode` is true iff `-q` occurs and `outputForPlanner`
is false iff `-g` occurs. Consequently two option sequences in which the
same options occur, in particular a permutation of a sequence or a sequence
with options repeated, give the same run of `main`. -/
theorem flags_depend_on_own_option {Domain Problem Invariant : Type}
    (env : Environment Domain Problem Invariant)
    (opts : List Char) (inputFiles : List String) (call : GroundingCall Domain Problem)
    (h : Event.run_grounding call ∈ (main env opts inputFiles).trace) :
    (call.enableHierarchyTyping = false ↔ 'h' ∈ opts) ∧
    (call.removeUselessPredicates = false ↔ 'l' ∈ opts) ∧
    (call.expandChoicelessAbstractTasks = false ↔ 'e' ∈ opts) ∧
    (call.pruneEmptyMethodPreconditions = false ↔ 'm' ∈ opts) ∧
    (call.futureCachingByPrecondition = true ↔ 'f' ∈ opts) ∧
    (call.h2mutexes = true ↔ '2' ∈ opts) ∧
    (call.quietMode = true ↔ 'q' ∈ opts) ∧
    (call.outputForPlanner = false ↔ 'g' ∈ opts) ∧
    (∀ opts' : List Char, (∀ c, c ∈ opts' ↔ c ∈ opts) →
      main env opts' inputFiles = main env opts inputFiles) ∧
    (∀ opts' : List Char, opts'.Perm opts →
      main env opts' inputFiles = main env opts inputFiles) ∧
    main env (opts ++ opts) inputFiles = main env opts inputFiles := by
  have hcongr : ∀ opts' : List Char, (∀ c, c ∈ opts' ↔ c ∈ opts) →
      main env opts' inputFiles = main env opts inputFiles := by
    intro opts' hmem
    unfold main
    rw [parseOptions_congr opts opts' hmem]
  rw [run_grounding_arguments env opts inputFiles call h]
  refine ⟨by simp, by simp, by simp, by simp, by simp, by simp, by simp, by simp, hcongr,
    ?_, ?_⟩
  · intro opts' hperm
    exact hcongr opts' (fun c => hperm.mem_iff)
  · exact hcongr (opts ++ opts) (fun c => by simp)

/-- Witness of C2: the options `-q -h -f -h -2`, reading `in.hddl` and
writing `out.sas`. -/
theorem flags_depend_on_own_option_witness :
    Event.run_grounding
        { domain := "domain"
          problem := "problem"
          outputStream := OutputStream.ofstream "out.sas"
          enableHierarchyTyping := false
          removeUselessPredicates := true
          expandChoicelessAbstractTasks := true
          pruneEmptyMethodPreconditions := true
          futureCachingByPrecondition := true
          h2mutexes := true
          outputForPlanner := true
          printTimings := false
          quietMode := true } ∈
      (main sampleEnv ['q', 'h', 'f', 'h', '2'] ["in.hddl", "out.sas"]).trace ∧
    main sampleEnv (['q', 'h', 'f', 'h', '2'] ++ ['q', 'h', 'f', 'h', '2'])
        ["in.hddl", "out.sas"] =
      main sampleEnv ['q', 'h', 'f', 'h', '2'] ["in.hddl", "out.sas"] :=
  have hmem :
      Event.run_grounding
          { domain := "domain"
            problem := "problem"
            outputStream := OutputStream.ofstream "out.sas"
            enableHierarchyTyping := false
            removeUselessPredicates := true
            expandChoicelessAbstractTasks := true
            pruneEmptyMethodPreconditions := true
            futureCachingByPrecondition := true
            h2mutexes := true
            outputForPlanner := true
            printTimings := false
            quietMode := true } ∈
        (main sampleEnv ['q', 'h', 'f', 'h', '2'] ["in.hddl", "out.sas"]).trace := by
    decide
  ⟨hmem,
    (flags_depend_on_own_option sampleEnv ['q', 'h', 'f', 'h', '2'] ["in.hddl", "out.sas"]
      _ hmem).2.2.2.2.2.2.2.2.2.2⟩

/-- C3 fails on the code: the branch for `'t'` assigns `false` to
`printTimings` (line 97), the value it already has (line 58). So
`printTimings` is `false` after every option sequence, and in the run with
the single option `-t`, reading standard input and writing standard output,
`run_grounding` is called with `printTimings` equal to `false`; the run is
the same as the run without `-t`. -/
theorem print_timings_option_has_no_effect :
    (∀ opts : List Char, (parseOptions opts).printTimings = false) ∧
    (parseOptions ['t']).printTimings = false ∧
    main sampleEnv ['t'] [] = main sampleEnv [] [] ∧
    (main sampleEnv ['t'] []).trace =
      [Event.cerrLine "Reading input from standard input.",
       Event.readInput InputStream.cin,
       Event.cerrLine "Writing output to standard output.",
       Event.cerrLine "Parsing done.",
       Event.run_grounding
        { domain := "domain"
          problem := "problem"
          outputStream := OutputStream.cout
          enableHierarchyTyping := true
          removeUselessPredicates := true
          expandChoicelessAbstractTasks := true
          pruneEmptyMethodPreconditions := true
          futureCachingByPrecondition := false
          h2mutexes := false
          outputForPlanner := true
          printTimings := false
          quietMode := false }] := by
  refine ⟨fun opts => by rw [parseOptions_eq], by decide, by decide, by decide⟩

/-- C4. Print-domain mode. In every run in which the options are valid, at
most two positional arguments are given, both streams open and `readInput`
succeeds, if `-p` or its alias `-O` occurs then `main` returns 1, the last
thing it does is the call of `printDomainAndProblem` on the domain and
problem left by `readInput`, and it invokes none of
`computeSASPlusInvariants`, `HierarchyTyping` and `run_grounding`, whatever
the other options. -/
theorem print_domain_mode_exits_one {Domain Problem Invariant : Type}
    (env : Environment Domain Problem Invariant)
    (opts : List Char) (inputFiles : List String)
    (hrun : ParsesInput env opts inputFiles) (hp : 'p' ∈ opts ∨ 'O' ∈ opts) :
    (main env opts inputFiles).exitCode = 1 ∧
    (main env opts inputFiles).trace.getLast? =
      some (Event.printDomainAndProblem (env.readInput (inputStreamOf inputFiles)).2.1
        (env.readInput (inputStreamOf inputFiles)).2.2) ∧
    (∀ d p, Event.computeSASPlusInvariants d p ∉ (main env opts inputFiles).trace) ∧
    (∀ d p, Event.newHierarchyTyping d p ∉ (main env opts inputFiles).trace) ∧
    (∀ call, Event.run_grounding call ∉ (main env opts inputFiles).trace) := by
  rw [main_of_printDomain env opts inputFiles hrun hp]
  obtain ⟨_, _, hc, ht, hg⟩ :=
    @setupTrace_events Domain Problem (parseOptions opts) inputFiles
  refine ⟨rfl, by simp, ?_, ?_, ?_⟩
  · intro d p; simp [hc d p]
  · intro d p; simp [ht d p]
  · intro call; simp [hg call]

/-- Witness of C4: `-O` together with `-i`, `-P` and `-2`, reading
`in.hddl` and writing `out.sas`. -/
theorem print_domain_mode_exits_one_witness :
    ParsesInput sampleEnv ['i', 'O', 'P', '2'] ["in.hddl", "out.sas"] ∧
    ('p' ∈ ['i', 'O', 'P', '2'] ∨ 'O' ∈ ['i', 'O', 'P', '2']) ∧
    (main sampleEnv ['i', 'O', 'P', '2'] ["in.hddl", "out.sas"]).exitCode = 1 ∧
    (main sampleEnv ['i', 'O', 'P', '2'] ["in.hddl", "out.sas"]).trace.getLast? =
      some (Event.printDomainAndProblem "domain" "problem") :=
  have hrun : ParsesInput sampleEnv ['i', 'O', 'P', '2'] ["in.hddl", "out.sas"] := by
    simp [ParsesInput, inputFilename, outputFilename, inputStreamOf, sampleEnv]
  have h := print_domain_mode_exits_one sampleEnv ['i', 'O', 'P', '2']
    ["in.hddl", "out.sas"] hrun (by decide)
  ⟨hrun, by decide, h.1, h.2.1⟩

/-- C5. If option parsing reports an unknown or malformed option (`'?'` or
`':'` among the values returned by `getopt_long_only`), then whatever the
other options, the positional arguments and the environment, `main` returns
1 and the only thing it does is to write the line "Invalid options. Exiting."
on `std::cout`: no stream is constructed, `readInput` is not called, and none
of `printDomainAndProblem`, `computeSASPlusInvariants`, `HierarchyTyping` and
`run_grounding` is invoked. -/
theorem invalid_options_exit_without_computation {Domain Problem Invariant : Type}
    (env : Environment Domain Problem Invariant)
    (opts : List Char) (inputFiles : List String)
    (h : '?' ∈ opts ∨ ':' ∈ opts) :
    (main env opts inputFiles).exitCode = 1 ∧
    (main env opts inputFiles).trace = [Event.coutLine "Invalid options. Exiting."] ∧
    (∀ filename, Event.newIfstream filename ∉ (main env opts inputFiles).trace) ∧
    (∀ filename, Event.newOfstream filename ∉ (main env opts inputFiles).trace) ∧
    (∀ stream, Event.readInput stream ∉ (main env opts inputFiles).trace) ∧
    (∀ d p, Event.printDomainAndProblem d p ∉ (main env opts inputFiles).trace) ∧
    (∀ d p, Event.computeSASPlusInvariants d p ∉ (main env opts inputFiles).trace) ∧
    (∀ d p, Event.newHierarchyTyping d p ∉ (main env opts inputFiles).trace) ∧
    (∀ call, Event.run_grounding call ∉ (main env opts inputFiles).trace) := by
  rw [main_of_invalid env opts inputFiles h]
  simp

/-- Witness of C5: the options `-i -P`, an unknown option and `-p`, with
three positional arguments. -/
theorem invalid_options_exit_without_computation_witness :
    ('?' ∈ ['i', 'P', '?', 'p'] ∨ ':' ∈ ['i', 'P', '?', 'p']) ∧
    (main sampleEnv ['i', 'P', '?', 'p'] ["a.hddl", "b.sas", "c"]).exitCode = 1 ∧
    (main sampleEnv ['i', 'P', '?', 'p'] ["a.hddl", "b.sas", "c"]).trace =
      [Event.coutLine "Invalid options. Exiting."] :=
  have h := invalid_options_exit_without_computation sampleEnv ['i', 'P', '?', 'p']
    ["a.hddl", "b.sas", "c"] (by decide)
  ⟨by decide, h.1, h.2.1⟩

/-- C6. Positional arguments, with valid options. If more than two are
given, `main` returns 1 without constructing a stream or calling
`readInput`. Otherwise the input path is the first one if present and `"-"`
if omitted, the output path is the second one if present and `"-"` if
omitted, and a path equal to `"-"` selects `std::cin`, respectively
`std::cout`, instead of a file: an input file stream is constructed only for
an input path other than `"-"`, `readInput` reads `std::cin` exactly when the
input path is `"-"` and the file of the input path exactly when that path is
not `"-"` and opens; an output file stream is constructed only for an output
path other than `"-"`, once the input is open, and `run_grounding` receives
`std::cout` when the output path is `"-"` and the file of the output path
otherwise. -/
theorem positional_arguments_select_streams {Domain Problem Invariant : Type}
    (env : Environment Domain Problem Invariant)
    (opts : List Char) (inputFiles : List String)
    (h1 : '?' ∉ opts) (h2 : ':' ∉ opts) :
    (2 < inputFiles.length →
      (main env opts inputFiles).exitCode = 1 ∧
      (∀ filename, Event.newIfstream filename ∉ (main env opts inputFiles).trace) ∧
      (∀ filename, Event.newOfstream filename ∉ (main env opts inputFiles).trace) ∧
      (∀ stream, Event.readInput stream ∉ (main env opts inputFiles).trace)) ∧
    (inputFiles.length ≤ 2 →
      inputFilename inputFiles = inputFiles.getD 0 "-" ∧
      outputFilename inputFiles = inputFiles.getD 1 "-" ∧
      (∀ filename, Event.newIfstream filename ∈ (main env opts inputFiles).trace ↔
        filename = inputFilename inputFiles ∧ filename ≠ "-") ∧
      (Event.readInput InputStream.cin ∈ (main env opts inputFiles).trace ↔
        inputFilename inputFiles = "-") ∧
      (∀ filename,
        Event.readInput (InputStream.ifstream filename) ∈ (main env opts inputFiles).trace ↔
          filename = inputFilename inputFiles ∧ filename ≠ "-" ∧
            env.ifstreamGood filename = true) ∧
      (∀ filename, Event.newOfstream filename ∈ (main env opts inputFiles).trace ↔
        filename = outputFilename inputFiles ∧ filename ≠ "-" ∧
          (inputFilename inputFiles ≠ "-" →
            env.ifstreamGood (inputFilename inputFiles) = true)) ∧
      (∀ call, Event.run_grounding call ∈ (main env opts inputFiles).trace →
        (call.outputStream = OutputStream.cout ↔ outputFilename inputFiles = "-") ∧
        (∀ filename, call.outputStream = OutputStream.ofstream filename ↔
          filename = outputFilename inputFiles ∧ filename ≠ "-"))) := by
  constructor
  · intro h3
    rw [main_of_tooMany env opts inputFiles h1 h2 h3]
    refine ⟨rfl, ?_, ?_, ?_⟩ <;> intro x <;> simp
  · intro h3
    have hin : inputFilename inputFiles = inputFiles.getD 0 "-" := by
      cases inputFiles <;> simp [inputFilename]
    have hout : outputFilename inputFiles = inputFiles.getD 1 "-" := by
      rcases inputFiles with _ | ⟨a, _ | ⟨b, t⟩⟩ <;> simp [outputFilename]
    refine ⟨hin, hout, ?_⟩
    have hcall : ∀ call, Event.run_grounding call ∈ (main env opts inputFiles).trace →
        (call.outputStream = OutputStream.cout ↔ outputFilename inputFiles = "-") ∧
        (∀ filename, call.outputStream = OutputStream.ofstream filename ↔
          filename = outputFilename inputFiles ∧ filename ≠ "-") := by
      intro call hmem
      rw [run_grounding_arguments env opts inputFiles call hmem]
      unfold outputStreamOf
      by_cases ho : outputFilename inputFiles = "-"
      · simp [ho]
      · simp [ho]
        intro filename
        constructor
        · intro h; subst h; exact ⟨rfl, ho⟩
        · intro h; exact h.1.symm
    obtain ⟨si, so, sr⟩ :=
      @setupTrace_streams Domain Problem (parseOptions opts) inputFiles
    by_cases h4 : inputFilename inputFiles ≠ "-" →
        env.ifstreamGood (inputFilename inputFiles) = true
    swap
    · have hi : inputFilename inputFiles ≠ "-" := fun hc => h4 (fun hn => absurd hc hn)
      have hbad : env.ifstreamGood (inputFilename inputFiles) = false := by
        cases hgood : env.ifstreamGood (inputFilename inputFiles)
        · rfl
        · exact absurd (fun _ => hgood) h4
      rw [main_of_inputFails env opts inputFiles h1 h2 h3 hi hbad] at hcall ⊢
      refine ⟨?_, ?_, ?_, ?_, hcall⟩
      · intro filename
        by_cases hd : 'd' ∈ opts <;> by_cases hq : 'q' ∈ opts <;> by_cases hP : 'P' ∈ opts <;>
          simp [hd, hq, hP] <;> intro h <;> rw [h] <;> exact hi
      · by_cases hd : 'd' ∈ opts <;> by_cases hq : 'q' ∈ opts <;> by_cases hP : 'P' ∈ opts <;>
          simp [hd, hq, hP, hi]
      · intro filename
        by_cases hd : 'd' ∈ opts <;> by_cases hq : 'q' ∈ opts <;> by_cases hP : 'P' ∈ opts <;>
          simp [hd, hq, hP] <;> intro h <;> rw [h] <;> simp [hbad]
      · intro filename
        by_cases hd : 'd' ∈ opts <;> by_cases hq : 'q' ∈ opts <;> by_cases hP : 'P' ∈ opts <;>
          simp [hd, hq, hP, hi, hbad]
    have hri : (Event.readInput InputStream.cin ∈
          (setupTrace (parseOptions opts) inputFiles : List (Event Domain Problem)) ↔
        inputFilename inputFiles = "-") ∧
        (∀ filename, Event.readInput (InputStream.ifstream filename) ∈
          (setupTrace (parseOptions opts) inputFiles : List (Event Domain Problem)) ↔
            filename = inputFilename inputFiles ∧ filename ≠ "-" ∧
              env.ifstreamGood filename = true) := by
      simp only [sr]
      unfold inputStreamOf
      by_cases hi : inputFilename inputFiles = "-"
      · simp [hi]
      · simp [hi]
        exact h4 hi
    have hso : ∀ filename, Event.newOfstream filename ∈
          (setupTrace (parseOptions opts) inputFiles : List (Event Domain Problem)) ↔
        filename = outputFilename inputFiles ∧ filename ≠ "-" ∧
          (inputFilename inputFiles ≠ "-" →
            env.ifstreamGood (inputFilename inputFiles) = true) := by
      intro filename
      rw [so]
      constructor
      · intro h; exact ⟨h.1, h.2, h4⟩
      · intro h; exact ⟨h.1, h.2.1⟩
    by_cases h5 : outputFilename inputFiles ≠ "-" →
        env.ofstreamGood (outputFilename inputFiles) = true
    swap
    · have ho : outputFilename inputFiles ≠ "-" := fun hc => h5 (fun hn => absurd hc hn)
      have hbad : env.ofstreamGood (outputFilename inputFiles) = false := by
        cases hgood : env.ofstreamGood (outputFilename inputFiles)
        · rfl
        · exact absurd (fun _ => hgood) h5
      rw [main_of_outputFails env opts inputFiles h1 h2 h3 h4 ho hbad] at hcall ⊢
      refine ⟨?_, ?_, ?_, ?_, hcall⟩
      · intro filename; simp [si]
      · simp [hri.1]
      · intro filename; simp [hri.2]
      · intro filename; simp [hso]
    rw [main_of_streamsOpen env opts inputFiles h1 h2 h3 h4 h5] at hcall ⊢
    obtain ⟨ai, ao, ar⟩ := afterStreams_streams env (parseOptions opts)
      (setupTrace (parseOptions opts) inputFiles)
      (env.readInput (inputStreamOf inputFiles)).1
      (env.readInput (inputStreamOf inputFiles)).2.1
      (env.readInput (inputStreamOf inputFiles)).2.2
      (outputStreamOf inputFiles)
    refine ⟨?_, ?_, ?_, ?_, hcall⟩
    · intro filename; rw [ai, si]
    · rw [ar, hri.1]
    · intro filename; rw [ar, hri.2]
    · intro filename; rw [ao, hso]

/-- Witness of C6: `-q` with the positional arguments `-` and `out.sas`;
the input is read from `std::cin`, no input file stream is constructed, and
an output file stream is constructed for `out.sas`. -/
theorem positional_arguments_select_streams_witness :
    '?' ∉ ['q'] ∧ ':' ∉ ['q'] ∧ ["-", "out.sas"].length ≤ 2 ∧
    Event.readInput InputStream.cin ∈ (main sampleEnv ['q'] ["-", "out.sas"]).trace ∧
    (∀ filename, Event.newIfstream filename ∉ (main sampleEnv ['q'] ["-", "out.sas"]).trace) ∧
    Event.newOfstream "out.sas" ∈ (main sampleEnv ['q'] ["-", "out.sas"]).trace :=
  have h := (positional_arguments_select_streams sampleEnv ['q'] ["-", "out.sas"]
    (by decide) (by decide)).2 (by decide)
  ⟨by decide, by decide, by decide, h.2.2.2.1.mpr (by decide),
    fun filename hmem => ((h.2.2.1 filename).mp hmem).2 ((h.2.2.1 filename).mp hmem).1,
    (h.2.2.2.2.2.1 "out.sas").mpr (by decide)⟩

/-- C7, as stated, fails. In the run on `broken.hddl` with output path
`out.sas`, `readInput` returns failure and an output file stream has been
constructed for `out.sas` before the failure is reported, so something is
done to the output destination. In the run on `broken.hddl` with the
unwritable output path `/proc/out.sas`, `readInput` returns failure and
"Failed to read input data!" is never reported: the run ends on the failure
to open the output file. -/
theorem parse_failure_touches_output :
    (sampleEnv.readInput (InputStream.ifstream "broken.hddl")).1 = false ∧
    (main sampleEnv [] ["broken.hddl", "out.sas"]).trace =
      [Event.cerrLine "Reading input from broken.hddl.",
       Event.newIfstream "broken.hddl",
       Event.readInput (InputStream.ifstream "broken.hddl"),
       Event.cerrLine "Writing output to out.sas.",
       Event.newOfstream "out.sas",
       Event.cerrLine "Failed to read input data!"] ∧
    (main sampleEnv [] ["broken.hddl", "/proc/out.sas"]).trace =
      [Event.cerrLine "Reading input from broken.hddl.",
       Event.newIfstream "broken.hddl",
       Event.readInput (InputStream.ifstream "broken.hddl"),
       Event.cerrLine "Writing output to /proc/out.sas.",
       Event.newOfstream "/proc/out.sas",
       Event.cerrLine "Unable to open output file /proc/out.sas: Permission denied"] := by
  refine ⟨by decide, by decide, by decide⟩

/-- C7, amended. In every run in which `readInput` is called and returns
failure, `main` returns 1, writes nothing to the output stream (no line on
`std::cout`, no call of `run_grounding` or `printDomainAndProblem`) and
invokes none of `printDomainAndProblem`, `computeSASPlusInvariants`,
`HierarchyTyping` and `run_grounding`. When the output path is `"-"` no
output file stream is constructed, and when the output path is `"-"` or its
file opens, the last thing `main` does is to report
"Failed to read input data!". -/
theorem parse_failure_exits_one {Domain Problem Invariant : Type}
    (env : Environment Domain Problem Invariant)
    (opts : List Char) (inputFiles : List String)
    (h1 : '?' ∉ opts) (h2 : ':' ∉ opts) (h3 : inputFiles.length ≤ 2)
    (h4 : inputFilename inputFiles ≠ "-" → env.ifstreamGood (inputFilename inputFiles) = true)
    (hfail : (env.readInput (inputStreamOf inputFiles)).1 = false) :
    Event.readInput (inputStreamOf inputFiles) ∈ (main env opts inputFiles).trace ∧
    (main env opts inputFiles).exitCode = 1 ∧
    (∀ text, Event.coutLine text ∉ (main env opts inputFiles).trace) ∧
    (∀ d p, Event.printDomainAndProblem d p ∉ (main env opts inputFiles).trace) ∧
    (∀ d p, Event.computeSASPlusInvariants d p ∉ (main env opts inputFiles).trace) ∧
    (∀ d p, Event.newHierarchyTyping d p ∉ (main env opts inputFiles).trace) ∧
    (∀ call, Event.run_grounding call ∉ (main env opts inputFiles).trace) ∧
    (outputFilename inputFiles = "-" →
      ∀ filename, Event.newOfstream filename ∉ (main env opts inputFiles).trace) ∧
    ((outputFilename inputFiles ≠ "-" →
        env.ofstreamGood (outputFilename inputFiles) = true) →
      (main env opts inputFiles).trace.getLast? =
        some (Event.cerrLine "Failed to read input data!")) := by
  obtain ⟨hco, hpd, hc, ht, hg⟩ :=
    @setupTrace_events Domain Problem (parseOptions opts) inputFiles
  obtain ⟨_, so, sr⟩ :=
    @setupTrace_streams Domain Problem (parseOptions opts) inputFiles
  by_cases h5 : outputFilename inputFiles ≠ "-" →
      env.ofstreamGood (outputFilename inputFiles) = true
  · rw [main_of_parseFails env opts inputFiles h1 h2 h3 h4 h5 hfail]
    refine ⟨by simp [sr], rfl, ?_, ?_, ?_, ?_, ?_, ?_, ?_⟩
    · intro text; simp [hco text]
    · intro d p; simp [hpd d p]
    · intro d p; simp [hc d p]
    · intro d p; simp [ht d p]
    · intro call; simp [hg call]
    · intro ho filename; simp [so, ho]
    · intro _; simp
  · have ho : outputFilename inputFiles ≠ "-" := fun hc => h5 (fun hn => absurd hc hn)
    have hbad : env.ofstreamGood (outputFilename inputFiles) = false := by
      cases hgood : env.ofstreamGood (outputFilename inputFiles)
      · rfl
      · exact absurd (fun _ => hgood) h5
    rw [main_of_outputFails env opts inputFiles h1 h2 h3 h4 ho hbad]
    refine ⟨by simp [sr], rfl, ?_, ?_, ?_, ?_, ?_, ?_, ?_⟩
    · intro text; simp [hco text]
    · intro d p; simp [hpd d p]
    · intro d p; simp [hc d p]
    · intro d p; simp [ht d p]
    · intro call; simp [hg call]
    · intro ho'; exact absurd ho' ho
    · intro h5'; exact absurd h5' h5

/-- Witness of C7 amended: `-i` on `broken.hddl`, writing standard output. -/
theorem parse_failure_exits_one_witness :
    '?' ∉ ['i'] ∧ ':' ∉ ['i'] ∧ ["broken.hddl"].length ≤ 2 ∧
    (inputFilename ["broken.hddl"] ≠ "-" →
      sampleEnv.ifstreamGood (inputFilename ["broken.hddl"]) = true) ∧
    (sampleEnv.readInput (inputStreamOf ["broken.hddl"])).1 = false ∧
    (main sampleEnv ['i'] ["broken.hddl"]).exitCode = 1 ∧
    (main sampleEnv ['i'] ["broken.hddl"]).trace.getLast? =
      some (Event.cerrLine "Failed to read input data!") :=
  have h := parse_failure_exits_one sampleEnv ['i'] ["broken.hddl"]
    (by decide) (by decide) (by decide) (by decide) (by decide)
  ⟨by decide, by decide, by decide, by decide, by decide, h.2.1,
    h.2.2.2.2.2.2.2.2 (by decide)⟩

/-- C8, as stated, fails: the run with `-P -i`, reading standard input,
reaches the analysis stage in primitive mode and invokes
`computeSASPlusInvariants`, an analysis component other than
`HierarchyTyping`. -/
theorem primitive_mode_runs_invariant_analysis :
    ReachesAnalysis sampleEnv ['P', 'i'] [] ∧ 'P' ∈ ['P', 'i'] ∧
    Event.computeSASPlusInvariants "domain" "problem" ∈
      (main sampleEnv ['P', 'i'] []).trace :=
  ⟨by simp [ReachesAnalysis, ParsesInput, inputFilename, outputFilename, inputStreamOf,
      sampleEnv],
   by decide, by decide⟩

/-- C8, amended. In every run that reaches the analysis stage with `-P`
set, `HierarchyTyping` is constructed iff `-h` does not occur, on the parsed
domain and problem; `computeSASPlusInvariants` is invoked iff `-i` occurs;
`printDomainAndProblem` and `run_grounding` are never invoked; nothing is
written to `std::cout`, so with no grounding call nothing reaches the output
stream; and `main` returns 0. This holds for every combination of the
remaining flags. -/
theorem primitive_mode_components {Domain Problem Invariant : Type}
    (env : Environment Domain Problem Invariant)
    (opts : List Char) (inputFiles : List String)
    (hrun : ReachesAnalysis env opts inputFiles) (hP : 'P' ∈ opts) :
    (Event.newHierarchyTyping (env.readInput (inputStreamOf inputFiles)).2.1
        (env.readInput (inputStreamOf inputFiles)).2.2 ∈ (main env opts inputFiles).trace ↔
      'h' ∉ opts) ∧
    ((∃ d p, Event.newHierarchyTyping d p ∈ (main env opts inputFiles).trace) ↔
      'h' ∉ opts) ∧
    ((∃ d p, Event.computeSASPlusInvariants d p ∈ (main env opts inputFiles).trace) ↔
      'i' ∈ opts) ∧
    (∀ d p, Event.printDomainAndProblem d p ∉ (main env opts inputFiles).trace) ∧
    (∀ call, Event.run_grounding call ∉ (main env opts inputFiles).trace) ∧
    (∀ text, Event.coutLine text ∉ (main env opts inputFiles).trace) ∧
    (main env opts inputFiles).exitCode = 0 := by
  obtain ⟨hco, hpd, _, _, hg⟩ :=
    @setupTrace_events Domain Problem (parseOptions opts) inputFiles
  refine ⟨?_, ?_, ?_, ?_, ?_, ?_, ?_⟩
  · rw [newHierarchyTyping_mem_iff env opts inputFiles hrun]
    simp [hP]
  · simp only [newHierarchyTyping_mem_iff env opts inputFiles hrun]
    simp [hP]
  · simp only [computeSASPlusInvariants_mem_iff env opts inputFiles hrun]
    simp
  · intro d p
    rw [main_of_reachesAnalysis env opts inputFiles hrun, analysisStage_parseOptions]
    by_cases hi : 'i' ∈ opts <;> by_cases hh : 'h' ∈ opts <;> simp [hpd d p, hP, hi, hh]
  · intro call hcall
    exact (reachesAnalysis_of_run_grounding env opts inputFiles call hcall).2 hP
  · intro text
    rw [main_of_reachesAnalysis env opts inputFiles hrun, analysisStage_parseOptions]
    by_cases hi : 'i' ∈ opts <;> by_cases hh : 'h' ∈ opts <;> simp [hco text, hP, hi, hh]
  · rw [main_of_reachesAnalysis env opts inputFiles hrun]

/-- Witness of C8 amended: `-P -i -h -2`, reading `in.hddl` and writing
`out.sas`. -/
theorem primitive_mode_components_witness :
    ReachesAnalysis sampleEnv ['P', 'i', 'h', '2'] ["in.hddl", "out.sas"] ∧
    'P' ∈ ['P', 'i', 'h', '2'] ∧
    (∀ call, Event.run_grounding call ∉
      (main sampleEnv ['P', 'i', 'h', '2'] ["in.hddl", "out.sas"]).trace) ∧
    (main sampleEnv ['P', 'i', 'h', '2'] ["in.hddl", "out.sas"]).exitCode = 0 :=
  have hrun : ReachesAnalysis sampleEnv ['P', 'i', 'h', '2'] ["in.hddl", "out.sas"] := by
    simp [ReachesAnalysis, ParsesInput, inputFilename, outputFilename, inputStreamOf,
      sampleEnv]
  have h := primitive_mode_components sampleEnv ['P', 'i', 'h', '2']
    ["in.hddl", "out.sas"] hrun (by decide)
  ⟨hrun, by decide, h.2.2.2.2.1, h.2.2.2.2.2.2⟩

/-- C9, as stated, fails: the run with `-2` alone, reading standard input,
reaches the analysis stage without `-i`; the invariant analysis is skipped,
and yet `run_grounding` is called with `h2mutexes` equal to `true`, so the
grounding call is asked for mutex pruning although `-i` is absent. -/
theorem h2_mutexes_requested_without_invariants :
    ReachesAnalysis sampleEnv ['2'] [] ∧ 'i' ∉ ['2'] ∧
    (main sampleEnv ['2'] []).trace =
      [Event.cerrLine "Reading input from standard input.",
       Event.readInput InputStream.cin,
       Event.cerrLine "Writing output to standard output.",
       Event.cerrLine "Parsing done.",
       Event.run_grounding
        { domain := "domain"
          problem := "problem"
          outputStream := OutputStream.cout
          enableHierarchyTyping := true
          removeUselessPredicates := true
          expandChoicelessAbstractTasks := true
          pruneEmptyMethodPreconditions := true
          futureCachingByPrecondition := false
          h2mutexes := true
          outputForPlanner := true
          printTimings := false
          quietMode := false }] :=
  ⟨by simp [ReachesAnalysis, ParsesInput, inputFilename, outputFilename, inputStreamOf,
      sampleEnv],
   by decide, by decide⟩

/-- C9, amended. Invariant computation is gated only by the invariants flag.
In every run that reaches the analysis stage, `computeSASPlusInvariants` is
invoked iff `-i` occurs among the options, and then on the parsed domain and
problem; this is so whether `-2` occurs or not: adding `-2` to the options or
removing every `-2` from them leaves it unchanged. When `-i` is absent the
invariant analysis is skipped. The `h2mutexes` flag handed to the grounding
call is decided by `-2` alone, with or without `-i`: outside primitive mode
`run_grounding` is called, and every call receives `h2mutexes = true` iff
`-2` occurs. -/
theorem invariants_gated_by_own_flag {Domain Problem Invariant : Type}
    (env : Environment Domain Problem Invariant)
    (opts : List Char) (inputFiles : List String)
    (hrun : ReachesAnalysis env opts inputFiles) :
    ((∃ d p, Event.computeSASPlusInvariants d p ∈ (main env opts inputFiles).trace) ↔
      'i' ∈ opts) ∧
    (Event.computeSASPlusInvariants (env.readInput (inputStreamOf inputFiles)).2.1
        (env.readInput (inputStreamOf inputFiles)).2.2 ∈ (main env opts inputFiles).trace ↔
      'i' ∈ opts) ∧
    ((∃ d p, Event.computeSASPlusInvariants d p ∈
        (main env ('2' :: opts) inputFiles).trace) ↔ 'i' ∈ opts) ∧
    ((∃ d p, Event.computeSASPlusInvariants d p ∈
        (main env (opts.filter (fun c => c ≠ '2')) inputFiles).trace) ↔ 'i' ∈ opts) ∧
    ('i' ∉ opts →
      ∀ d p, Event.computeSASPlusInvariants d p ∉ (main env opts inputFiles).trace) ∧
    (∀ call, Event.run_grounding call ∈ (main env opts inputFiles).trace →
      (call.h2mutexes = true ↔ '2' ∈ opts)) ∧
    ('P' ∉ opts →
      ∃ call, Event.run_grounding call ∈ (main env opts inputFiles).trace ∧
        (call.h2mutexes = true ↔ '2' ∈ opts)) := by
  have hadd : ReachesAnalysis env ('2' :: opts) inputFiles :=
    reachesAnalysis_congr env opts ('2' :: opts) inputFiles
      (by simp) (by simp) (by simp) (by simp) hrun
  have hdel : ReachesAnalysis env (opts.filter (fun c => c ≠ '2')) inputFiles :=
    reachesAnalysis_congr env opts (opts.filter (fun c => c ≠ '2')) inputFiles
      (by simp) (by simp) (by simp) (by simp) hrun
  have hflag : ∀ call, Event.run_grounding call ∈ (main env opts inputFiles).trace →
      (call.h2mutexes = true ↔ '2' ∈ opts) := by
    intro call hcall
    rw [run_grounding_arguments env opts inputFiles call hcall]
    simp
  refine ⟨?_, ?_, ?_, ?_, ?_, hflag, ?_⟩
  · simp only [computeSASPlusInvariants_mem_iff env opts inputFiles hrun]
    simp
  · rw [computeSASPlusInvariants_mem_iff env opts inputFiles hrun]
    simp
  · simp only [computeSASPlusInvariants_mem_iff env ('2' :: opts) inputFiles hadd]
    simp
  · simp only [computeSASPlusInvariants_mem_iff env _ inputFiles hdel]
    simp
  · intro hi d p hmem
    rw [computeSASPlusInvariants_mem_iff env opts inputFiles hrun] at hmem
    exact hi hmem.1
  · intro hP
    have hex : ∃ call, Event.run_grounding call ∈ (main env opts inputFiles).trace := by
      rw [main_of_reachesAnalysis env opts inputFiles hrun, analysisStage_parseOptions]
      simp only [hP, if_false]
      exact ⟨_, List.mem_append_right _ (List.mem_append_right _
        (List.mem_singleton.mpr rfl))⟩
    obtain ⟨call, hcall⟩ := hex
    exact ⟨call, hcall, hflag call hcall⟩

/-- Witness of C9 amended: `-2 -i`, reading standard input. -/
theorem invariants_gated_by_own_flag_witness :
    ReachesAnalysis sampleEnv ['2', 'i'] [] ∧
    Event.computeSASPlusInvariants "domain" "problem" ∈
      (main sampleEnv ['2', 'i'] []).trace ∧
    ∃ call, Event.run_grounding call ∈ (main sampleEnv ['2', 'i'] []).trace ∧
      (call.h2mutexes = true ↔ '2' ∈ ['2', 'i']) :=
  have hrun : ReachesAnalysis sampleEnv ['2', 'i'] [] := by
    simp [ReachesAnalysis, ParsesInput, inputFilename, outputFilename, inputStreamOf,
      sampleEnv]
  have h := invariants_gated_by_own_flag sampleEnv ['2', 'i'] [] hrun
  ⟨hrun, h.2.1.mpr (by decide), h.2.2.2.2.2.2 (by decide)⟩

/-- C10, as stated, fails: the run with `-i` alone, reading standard input,
invokes `computeSASPlusInvariants` and then `run_grounding`, and it is the
same run, with the same grounding call, in an environment whose invariant
analysis returns two invariants and in one whose analysis returns none. -/
theorem grounding_ignores_computed_invariants :
    'i' ∈ ['i'] ∧ 'P' ∉ ['i'] ∧
    sampleEnv.computeSASPlusInvariants "domain" "problem" ≠
      sampleEnvNoInvariants.computeSASPlusInvariants "domain" "problem" ∧
    (main sampleEnv ['i'] []).trace =
      [Event.cerrLine "Reading input from standard input.",
       Event.readInput InputStream.cin,
       Event.cerrLine "Writing output to standard output.",
       Event.cerrLine "Parsing done.",
       Event.computeSASPlusInvariants "domain" "problem",
       Event.run_grounding
        { domain := "domain"
          problem := "problem"
          outputStream := OutputStream.cout
          enableHierarchyTyping := true
          removeUselessPredicates := true
          expandChoicelessAbstractTasks := true
          pruneEmptyMethodPreconditions := true
          futureCachingByPrecondition := false
          h2mutexes := false
          outputForPlanner := true
          printTimings := false
          quietMode := false }] ∧
    main sampleEnv ['i'] [] = main sampleEnvNoInvariants ['i'] [] := by
  refine ⟨by decide, by decide, by decide, by decide, by decide⟩

/-- C10, amended. When invariants are requested (`-i`) and the run reaches
the analysis stage outside primitive mode, `computeSASPlusInvariants` is
invoked on the parsed domain and problem and `run_grounding` is called right
after it, but the invariant set returned is not among the arguments of that
call: the run of the driver, the grounding call included, is the same
whatever value the invariant analysis returns. -/
theorem invariants_not_passed_to_grounding {Domain Problem Invariant : Type}
    (env : Environment Domain Problem Invariant)
    (opts : List Char) (inputFiles : List String)
    (hrun : ReachesAnalysis env opts inputFiles) (hi : 'i' ∈ opts) (hP : 'P' ∉ opts) :
    (∃ before call, (main env opts inputFiles).trace =
      before ++
        [Event.computeSASPlusInvariants (env.readInput (inputStreamOf inputFiles)).2.1
          (env.readInput (inputStreamOf inputFiles)).2.2,
         Event.run_grounding call]) ∧
    ∀ g : Domain → Problem → List Invariant,
      main { env with computeSASPlusInvariants := g } opts inputFiles =
        main env opts inputFiles := by
  refine ⟨?_, fun g => main_invariants_unused env g opts inputFiles⟩
  rw [main_of_reachesAnalysis env opts inputFiles hrun, analysisStage_parseOptions]
  simp only [hi, hP, if_true, if_false, List.singleton_append]
  exact ⟨_, _, rfl⟩

/-- Witness of C10 amended: `-i -q`, reading `in.hddl` and writing
`out.sas`. -/
theorem invariants_not_passed_to_grounding_witness :
    ReachesAnalysis sampleEnv ['i', 'q'] ["in.hddl", "out.sas"] ∧
    'i' ∈ ['i', 'q'] ∧ 'P' ∉ ['i', 'q'] ∧
    main { sampleEnv with computeSASPlusInvariants := fun _ _ => [7] } ['i', 'q']
        ["in.hddl", "out.sas"] =
      main sampleEnv ['i', 'q'] ["in.hddl", "out.sas"] :=
  have hrun : ReachesAnalysis sampleEnv ['i', 'q'] ["in.hddl", "out.sas"] := by
    simp [ReachesAnalysis, ParsesInput, inputFilename, outputFilename, inputStreamOf,
      sampleEnv]
  ⟨hrun, by decide, by decide,
    (invariants_not_passed_to_grounding sampleEnv ['i', 'q'] ["in.hddl", "out.sas"] hrun
      (by decide) (by decide)).2 (fun _ _ => [7])⟩

end PandaPIGrounder
